import Mathlib

/-!
Shallow embedding of the UPS-vs-NPS pension calculator
(`upsnpscalculator.js`) over exact rational arithmetic, together with
theorems settling the specification claims about it.

Numbers are modelled as `ℚ`: the source's arithmetic is `+`, `-`, `*`,
`/`, `max`, `min` and integer powers, all of which are exact here.
-/

namespace UpsNps

/-- Source constant `UPS_PENSION_FACTOR = 0.5`. -/
def UPS_PENSION_FACTOR : ℚ := 0.5

/-- Source constant `UPS_SPOUSE_FACTOR = 0.6`. -/
def UPS_SPOUSE_FACTOR : ℚ := 0.6

/-- Source constant `NPS_ANNUITY_PORTION = 0.4`. -/
def NPS_ANNUITY_PORTION : ℚ := 0.4

/-- Source constant `NPS_LUMP_SUM_PORTION = 0.6`. -/
def NPS_LUMP_SUM_PORTION : ℚ := 0.6

/-- Source constant `MONTHS_PER_YEAR = 12`. -/
def MONTHS_PER_YEAR : ℚ := 12

/-- `calculateFinalSalary(currentSalary, growthRate, years)`:
compound growth of the salary to retirement. -/
def calculateFinalSalary (currentSalary growthRate : ℚ) (years : ℕ) : ℚ :=
  currentSalary * (1 + growthRate) ^ years

/-- `calculateUPSMonthlyPension(finalSalary, yearsOfService)`:
service-proportional monthly pension, capped at 25 years of service. -/
def calculateUPSMonthlyPension (finalSalary yearsOfService : ℚ) : ℚ :=
  let serviceFactor := min (yearsOfService / 25) 1
  let annualPension := serviceFactor * UPS_PENSION_FACTOR * finalSalary
  annualPension / MONTHS_PER_YEAR

/-- `calculateUPSLumpSum(finalSalaryAnnual, yearsOfService)`. -/
def calculateUPSLumpSum (finalSalaryAnnual yearsOfService : ℚ) : ℚ :=
  let lastMonthlySalary := finalSalaryAnnual / MONTHS_PER_YEAR
  let numSixMonthPeriods := yearsOfService * 2
  (1 / 10) * lastMonthlySalary * numSixMonthPeriods

/-- `calculateNPSCorpus(currentSalary, growthRate, years, totalContribRate,
annualReturn, existingCorpus)`: the source's accumulation loop
`for (let i = 1; i <= years; i++)`, rendered as a fold over `i = 1..years`. -/
def calculateNPSCorpus (currentSalary growthRate : ℚ) (years : ℕ)
    (totalContribRate annualReturn : ℚ) (existingCorpus : ℚ) : ℚ :=
  (List.range years).foldl
    (fun corpus j =>
      let i := j + 1
      let salaryAtYear := currentSalary * (1 + growthRate) ^ i
      let annualContribution := totalContribRate * salaryAtYear
      let yearsToCompound := years - i
      corpus + annualContribution * (1 + annualReturn) ^ yearsToCompound)
    (existingCorpus * (1 + annualReturn) ^ years)

/-- `calculateNPSMonthlyPension(corpus, annuityRate)`. -/
def calculateNPSMonthlyPension (corpus annuityRate : ℚ) : ℚ :=
  let annualAnnuityPension := NPS_ANNUITY_PORTION * corpus * annuityRate
  annualAnnuityPension / MONTHS_PER_YEAR

/-! ## The corpus-depletion engine

`calculateCorpusDepletionYears` in the source is a `while` loop
(`while (corpus > 0 && year < totalYears)`) mutating `corpus`, `year`
and `upsMonthly`, printing one trace row per iteration, recording
`minReturnRate` at year 0, and returning either `Infinity` (the
perpetuity sentinel) or the final `year` count.

Each local binding of the loop body is transcribed as a standalone
function of the loop state (named after the source local, with the
source line cited); the loop itself is `engineLoop`, structurally
recursive on the fuel `(totalYears - year).toNat`, which decreases by
one exactly as `year` increases by one, so fuel exhaustion coincides
with the failure of `year < totalYears`.  The observable behaviour
(returned year count, the `Infinity` verdict, the recorded
`minReturnRate`, the printed rows, and the final values of the mutated
variables) is collected in `EngineResult`. -/

/-- The parameters of `calculateCorpusDepletionYears`. -/
structure EngineParams where
  initialCorpus : ℚ
  upsMonthlyInitial : ℚ
  npsMonthly : ℚ
  employeeLifeYears : ℤ
  spouseAdditionalYears : ℤ
  postRetGrowth : ℚ
  corpusReturn : ℚ
  upsLumpSum : ℚ
deriving DecidableEq

/-- One printed row of the year-by-year analysis (the `console.log` in
the loop body, source lines 109-120).  `corpusBalance` is exactly the
value printed in the "Corpus Balance" column: the variable `corpus` at
that point of the iteration. -/
structure TraceRecord where
  year : ℕ
  isSpousePhase : Bool
  yearlyUps : ℚ
  upsReturn : ℚ
  totalUpsIncome : ℚ
  yearlyNps : ℚ
  interestEarned : ℚ
  totalNpsIncome : ℚ
  yearlyDifference : ℚ
  corpusBalance : ℚ
deriving DecidableEq, Inhabited

/-- Observable outcome of one engine run: the returned year count,
whether the `Infinity` (perpetual) sentinel was returned, the recorded
`minReturnRate`, the printed rows in order, and the final values of the
mutated variables `corpus` and `upsMonthly`. -/
structure EngineResult where
  years : ℕ
  perpetual : Bool
  minReturnRate : Option ℚ
  trace : List TraceRecord
  finalCorpus : ℚ
  finalUpsMonthly : ℚ
deriving DecidableEq

/-- `currentUps` of the iteration with counter `year` and monthly
pension `upsMonthly` (source lines 97-98: the spouse factor applies
when `year >= employeeLifeYears`). -/
def currentUpsFor (p : EngineParams) (year : ℕ) (upsMonthly : ℚ) : ℚ :=
  upsMonthly * (if p.employeeLifeYears ≤ (year : ℤ) then UPS_SPOUSE_FACTOR else 1)

/-- `totalUpsIncome` of the iteration (source lines 101-103):
`yearlyUps + upsReturn` with `yearlyUps = currentUps * 12` and
`upsReturn = upsLumpSum * corpusReturn`. -/
def totalUpsIncomeFor (p : EngineParams) (year : ℕ) (upsMonthly : ℚ) : ℚ :=
  currentUpsFor p year upsMonthly * MONTHS_PER_YEAR + p.upsLumpSum * p.corpusReturn

/-- `totalNpsIncome` of the iteration with balance `corpus`
(source lines 104-106): the constant yearly annuity plus
`interestEarned = corpus * corpusReturn`, interest on the current,
pre-update balance. -/
def totalNpsIncomeFor (p : EngineParams) (corpus : ℚ) : ℚ :=
  p.npsMonthly * MONTHS_PER_YEAR + corpus * p.corpusReturn

/-- The corpus update of one iteration (source lines 135-136): growth
applied first, then subtraction of the clamped shortfall. -/
def nextCorpus (p : EngineParams) (year : ℕ) (corpus upsMonthly : ℚ) : ℚ :=
  corpus * (1 + p.corpusReturn) -
    max 0 (totalUpsIncomeFor p year upsMonthly - totalNpsIncomeFor p corpus)

/-- The trace row printed by the iteration with counter `year`, balance
`corpus` and monthly pension `upsMonthly` (source lines 109-120). -/
def mkRow (p : EngineParams) (year : ℕ) (corpus upsMonthly : ℚ) : TraceRecord :=
  { year := year
    isSpousePhase := decide (p.employeeLifeYears ≤ (year : ℤ))
    yearlyUps := currentUpsFor p year upsMonthly * MONTHS_PER_YEAR
    upsReturn := p.upsLumpSum * p.corpusReturn
    totalUpsIncome := totalUpsIncomeFor p year upsMonthly
    yearlyNps := p.npsMonthly * MONTHS_PER_YEAR
    interestEarned := corpus * p.corpusReturn
    totalNpsIncome := totalNpsIncomeFor p corpus
    yearlyDifference := totalUpsIncomeFor p year upsMonthly - totalNpsIncomeFor p corpus
    corpusBalance := corpus }

/-- The loop of `calculateCorpusDepletionYears` (source lines 96-139).
`fuel` stands for `(totalYears - year).toNat`, so `fuel = 0` exactly
when the condition `year < totalYears` fails; `acc` holds the rows
printed so far, most recent first.  The three exits are: condition
failure (fuel out or `corpus ≤ 0`, source line 96 / 145), the year-0
perpetuity `return Infinity` (lines 125-131), and the recursive
continuation after the state update (lines 135-138). -/
def engineLoop (p : EngineParams) : ℕ → ℕ → ℚ → ℚ → Option ℚ →
    List TraceRecord → EngineResult
  | 0, year, corpus, upsMonthly, mrr, acc =>
    { years := year, perpetual := false, minReturnRate := mrr,
      trace := acc.reverse, finalCorpus := corpus,
      finalUpsMonthly := upsMonthly }
  | fuel + 1, year, corpus, upsMonthly, mrr, acc =>
    if 0 < corpus then
      let mrr' := if year = 0 then
        some ((totalUpsIncomeFor p year upsMonthly - totalNpsIncomeFor p corpus)
          / p.initialCorpus)
        else mrr
      if year = 0 ∧ totalUpsIncomeFor p year upsMonthly ≤ totalNpsIncomeFor p corpus then
        { years := year, perpetual := true, minReturnRate := mrr',
          trace := (mkRow p year corpus upsMonthly :: acc).reverse,
          finalCorpus := corpus, finalUpsMonthly := upsMonthly }
      else
        engineLoop p fuel (year + 1) (nextCorpus p year corpus upsMonthly)
          (upsMonthly * (1 + p.postRetGrowth)) mrr'
          (mkRow p year corpus upsMonthly :: acc)
    else
      { years := year, perpetual := false, minReturnRate := mrr,
        trace := acc.reverse, finalCorpus := corpus,
        finalUpsMonthly := upsMonthly }

/-- `calculateCorpusDepletionYears`, as a function returning the whole
observable outcome of the run. -/
def calculateCorpusDepletionYears (p : EngineParams) : EngineResult :=
  engineLoop p (p.employeeLifeYears + p.spouseAdditionalYears).toNat 0
    p.initialCorpus p.upsMonthlyInitial none []

/-- The `upsMonthly` value at the start of year `n` (source line 137
applied `n` times). -/
def upsMonthlyAt (p : EngineParams) : ℕ → ℚ
  | 0 => p.upsMonthlyInitial
  | n + 1 => upsMonthlyAt p n * (1 + p.postRetGrowth)

/-- The corpus balance at the start of year `n`, had the loop run `n`
full iterations. -/
def corpusAt (p : EngineParams) : ℕ → ℚ
  | 0 => p.initialCorpus
  | n + 1 => nextCorpus p n (corpusAt p n) (upsMonthlyAt p n)

/-- The minimum-sustainable-return figure the program reports: in the
perpetual case the engine's own year-0 figure is printed (source line
128); otherwise `main` recomputes a static figure from the initial-year
monthly pensions and the lump sum (source lines 281-285). -/
def reportedMinReturnRate (upsMonthly npsMonthly lumpSum : ℚ)
    (r : EngineResult) : Option ℚ :=
  if r.perpetual then r.minReturnRate
  else some ((upsMonthly * MONTHS_PER_YEAR - npsMonthly * MONTHS_PER_YEAR) / lumpSum)

/-! ### Concrete parameter sets used to evaluate the theorems

Field order: initialCorpus, upsMonthlyInitial, npsMonthly,
employeeLifeYears, spouseAdditionalYears, postRetGrowth, corpusReturn,
upsLumpSum. -/

/-- A run that depletes during year 0 (UPS 100/month, no NPS income,
zero return). -/
def pC1 : EngineParams := ⟨1000, 100, 0, 2, 0, 0, 0, 0⟩

/-- A run whose year-0 NPS income (600/yr) covers the UPS income
(12/yr): the perpetuity verdict fires. -/
def pC2 : EngineParams := ⟨1000, 1, 50, 2, 0, 0, 0, 0⟩

/-- A run whose single simulated year starts at 1000 and ends at
-200: the printed balance and the ending balance differ. -/
def pC3 : EngineParams := ⟨1000, 100, 0, 2, 0, 0, 0, 0⟩

/-- Zero return, employee phase one year (shortfall 600/yr), then four
spouse years (shortfall only 120/yr): the corpus is still positive when
the five-year horizon ends, so the loop runs five years while
`ceil(1000/600) = 2`. -/
def pC4 : EngineParams := ⟨1000, 100, 50, 1, 4, 0, 0, 0⟩

/-- Zero return, five employee years, constant shortfall 600/yr. -/
def pC4w : EngineParams := ⟨1000, 100, 50, 5, 0, 0, 0, 0⟩

/-- A depleting run (same figures as `pC1`). -/
def pC7dep : EngineParams := ⟨1000, 100, 0, 2, 0, 0, 0, 0⟩

/-- A perpetual run (same figures as `pC2`). -/
def pC7per : EngineParams := ⟨1000, 1, 50, 2, 0, 0, 0, 0⟩

/-- A run with `totalYears = 2 + (-3) < 0`. -/
def pC8 : EngineParams := ⟨100, 10, 5, 2, -3, 0, 0, 0⟩

/-- A run with zero UPS pension, NPS annuity 10/month and 10% corpus
return: NPS income dominates. -/
def pC9 : EngineParams := ⟨100, 0, 10, 5, 5, 0, 1 / 10, 0⟩

/-- A run whose year-0 body executes, so `minReturnRate` is recorded. -/
def pC10 : EngineParams := ⟨1000, 100, 0, 2, 0, 0, 0, 0⟩

end UpsNps

namespace UpsNps

/-! ## Unfolding lemmas for the loop -/

lemma engineLoop_fuel_zero (p : EngineParams) (year : ℕ) (c u : ℚ)
    (mrr : Option ℚ) (acc : List TraceRecord) :
    engineLoop p 0 year c u mrr acc =
      { years := year, perpetual := false, minReturnRate := mrr,
        trace := acc.reverse, finalCorpus := c, finalUpsMonthly := u } := rfl

lemma engineLoop_depleted (p : EngineParams) (fuel year : ℕ) (c u : ℚ)
    (mrr : Option ℚ) (acc : List TraceRecord) (h : ¬ 0 < c) :
    engineLoop p (fuel + 1) year c u mrr acc =
      { years := year, perpetual := false, minReturnRate := mrr,
        trace := acc.reverse, finalCorpus := c, finalUpsMonthly := u } := by
  simp only [engineLoop, if_neg h]

lemma engineLoop_perpetual (p : EngineParams) (fuel : ℕ) (c u : ℚ)
    (mrr : Option ℚ) (acc : List TraceRecord) (hc : 0 < c)
    (h : totalUpsIncomeFor p 0 u ≤ totalNpsIncomeFor p c) :
    engineLoop p (fuel + 1) 0 c u mrr acc =
      { years := 0, perpetual := true,
        minReturnRate :=
          some ((totalUpsIncomeFor p 0 u - totalNpsIncomeFor p c) / p.initialCorpus),
        trace := (mkRow p 0 c u :: acc).reverse,
        finalCorpus := c, finalUpsMonthly := u } := by
  simp [engineLoop, hc, h]

lemma engineLoop_continue (p : EngineParams) (fuel year : ℕ) (c u : ℚ)
    (mrr : Option ℚ) (acc : List TraceRecord) (hc : 0 < c)
    (h : ¬ (year = 0 ∧ totalUpsIncomeFor p year u ≤ totalNpsIncomeFor p c)) :
    engineLoop p (fuel + 1) year c u mrr acc =
      engineLoop p fuel (year + 1) (nextCorpus p year c u)
        (u * (1 + p.postRetGrowth))
        (if year = 0 then
          some ((totalUpsIncomeFor p year u - totalNpsIncomeFor p c) / p.initialCorpus)
          else mrr)
        (mkRow p year c u :: acc) := by
  simp only [engineLoop, if_pos hc, if_neg h]

/-! ## Invariants of the loop -/

/-- The perpetuity verdict can only be produced by an iteration with
counter 0: a loop started at `year ≥ 1` never returns it. -/
lemma engineLoop_perpetual_false (p : EngineParams) :
    ∀ fuel year c u mrr acc, 1 ≤ year →
      (engineLoop p fuel year c u mrr acc).perpetual = false := by
  intro fuel
  induction fuel with
  | zero => intro year c u mrr acc _; rfl
  | succ n ih =>
    intro year c u mrr acc hy
    by_cases hc : 0 < c
    · have hcond : ¬ (year = 0 ∧ totalUpsIncomeFor p year u ≤ totalNpsIncomeFor p c) := by
        rintro ⟨rfl, -⟩; omega
      rw [engineLoop_continue p n year c u mrr acc hc hcond]
      exact ih (year + 1) _ _ _ _ (by omega)
    · rw [engineLoop_depleted p n year c u mrr acc hc]

/-- `minReturnRate` is written only by an iteration with counter 0: a
loop started at `year ≥ 1` returns it unchanged. -/
lemma engineLoop_mrr_frozen (p : EngineParams) :
    ∀ fuel year c u mrr acc, 1 ≤ year →
      (engineLoop p fuel year c u mrr acc).minReturnRate = mrr := by
  intro fuel
  induction fuel with
  | zero => intro year c u mrr acc _; rfl
  | succ n ih =>
    intro year c u mrr acc hy
    by_cases hc : 0 < c
    · have hcond : ¬ (year = 0 ∧ totalUpsIncomeFor p year u ≤ totalNpsIncomeFor p c) := by
        rintro ⟨rfl, -⟩; omega
      rw [engineLoop_continue p n year c u mrr acc hc hcond]
      rw [if_neg (by omega : ¬ year = 0)]
      exact ih (year + 1) _ _ _ _ (by omega)
    · rw [engineLoop_depleted p n year c u mrr acc hc]

/-- The returned year count never exceeds the starting counter plus the
fuel (i.e. the loop runs at most `totalYears` iterations). -/
lemma engineLoop_years_le (p : EngineParams) :
    ∀ fuel year c u mrr acc,
      (engineLoop p fuel year c u mrr acc).years ≤ year + fuel := by
  intro fuel
  induction fuel with
  | zero => intro year c u mrr acc; simp [engineLoop_fuel_zero]
  | succ n ih =>
    intro year c u mrr acc
    by_cases hc : 0 < c
    · by_cases hcond :
        year = 0 ∧ totalUpsIncomeFor p year u ≤ totalNpsIncomeFor p c
      · obtain ⟨rfl, hle⟩ := hcond
        rw [engineLoop_perpetual p n c u mrr acc hc hle]
        simp
      · rw [engineLoop_continue p n year c u mrr acc hc hcond]
        calc (engineLoop p n (year + 1) _ _ _ _).years ≤ (year + 1) + n :=
              ih (year + 1) _ _ _ _
          _ = year + (n + 1) := by omega
    · rw [engineLoop_depleted p n year c u mrr acc hc]
      simp

end UpsNps

namespace UpsNps

/-- Every row ever placed in the trace by a loop run in the
synchronized state (balance `corpusAt p year`, pension
`upsMonthlyAt p year`) is the row of some year `n ≥ year`, printed with
that year's start-of-year balance and pension. -/
lemma engineLoop_trace_rows (p : EngineParams) :
    ∀ fuel year mrr acc r,
      r ∈ (engineLoop p fuel year (corpusAt p year) (upsMonthlyAt p year) mrr acc).trace →
      r ∈ acc ∨ ∃ n, year ≤ n ∧ r = mkRow p n (corpusAt p n) (upsMonthlyAt p n) := by
  intro fuel
  induction fuel with
  | zero =>
    intro year mrr acc r hr
    rw [engineLoop_fuel_zero] at hr
    exact Or.inl (List.mem_reverse.mp hr)
  | succ n ih =>
    intro year mrr acc r hr
    by_cases hc : 0 < corpusAt p year
    · by_cases hcond : year = 0 ∧
        totalUpsIncomeFor p year (upsMonthlyAt p year) ≤ totalNpsIncomeFor p (corpusAt p year)
      · obtain ⟨h0, hle⟩ := hcond
        subst h0
        rw [engineLoop_perpetual p n _ _ mrr acc hc hle] at hr
        rw [List.mem_reverse] at hr
        rcases List.mem_cons.mp hr with h | h
        · exact Or.inr ⟨0, le_refl 0, h⟩
        · exact Or.inl h
      · rw [engineLoop_continue p n year _ _ mrr acc hc hcond] at hr
        have hr2 : r ∈ (engineLoop p n (year + 1) (corpusAt p (year + 1))
            (upsMonthlyAt p (year + 1))
            (if year = 0 then
              some ((totalUpsIncomeFor p year (upsMonthlyAt p year) -
                totalNpsIncomeFor p (corpusAt p year)) / p.initialCorpus)
              else mrr)
            (mkRow p year (corpusAt p year) (upsMonthlyAt p year) :: acc)).trace := by
          simpa only [corpusAt, upsMonthlyAt] using hr
        rcases ih (year + 1) _ _ r hr2 with h | ⟨m, hm, hr'⟩
        · rcases List.mem_cons.mp h with h' | h'
          · exact Or.inr ⟨year, le_refl _, h'⟩
          · exact Or.inl h'
        · exact Or.inr ⟨m, by omega, hr'⟩
    · rw [engineLoop_depleted p n year _ _ mrr acc hc] at hr
      exact Or.inl (List.mem_reverse.mp hr)

/-- If the start-of-year balance of some year `k` is already
non-positive, the loop (run in the synchronized state) stops with a
year count of at most `k`. -/
lemma engineLoop_years_le_of_depletion (p : EngineParams) (k : ℕ)
    (hk : corpusAt p k ≤ 0) :
    ∀ fuel year mrr acc, year ≤ k →
      (engineLoop p fuel year (corpusAt p year) (upsMonthlyAt p year) mrr acc).years ≤ k := by
  intro fuel
  induction fuel with
  | zero =>
    intro year mrr acc hy
    rw [engineLoop_fuel_zero]
    exact hy
  | succ n ih =>
    intro year mrr acc hy
    by_cases hc : 0 < corpusAt p year
    · have hyk : year < k := by
        rcases Nat.eq_or_lt_of_le hy with h0 | h0
        · exact absurd hk (by rw [← h0]; exact not_le.mpr hc)
        · exact h0
      by_cases hcond : year = 0 ∧
        totalUpsIncomeFor p year (upsMonthlyAt p year) ≤ totalNpsIncomeFor p (corpusAt p year)
      · obtain ⟨h0, hle⟩ := hcond
        subst h0
        rw [engineLoop_perpetual p n _ _ mrr acc hc hle]
        exact Nat.zero_le k
      · rw [engineLoop_continue p n year _ _ mrr acc hc hcond]
        have := ih (year + 1)
          (if year = 0 then
            some ((totalUpsIncomeFor p year (upsMonthlyAt p year) -
              totalNpsIncomeFor p (corpusAt p year)) / p.initialCorpus)
            else mrr)
          (mkRow p year (corpusAt p year) (upsMonthlyAt p year) :: acc) (by omega)
        simpa only [corpusAt, upsMonthlyAt] using this
    · rw [engineLoop_depleted p n year _ _ mrr acc hc]
      exact hy

/-- `calculateCorpusDepletionYears` is the synchronized loop started at
year 0. -/
lemma calculateCorpusDepletionYears_eq_loop (p : EngineParams) :
    calculateCorpusDepletionYears p =
      engineLoop p (p.employeeLifeYears + p.spouseAdditionalYears).toNat 0
        (corpusAt p 0) (upsMonthlyAt p 0) none [] := rfl

/-- With a non-positive starting corpus the loop body never runs and
the returned year count is 0. -/
lemma years_eq_zero_of_corpus_nonpos (p : EngineParams)
    (h : ¬ 0 < p.initialCorpus) :
    (calculateCorpusDepletionYears p).years = 0 := by
  unfold calculateCorpusDepletionYears
  cases (p.employeeLifeYears + p.spouseAdditionalYears).toNat with
  | zero => rfl
  | succ n => rw [engineLoop_depleted p n 0 _ _ none [] h]

end UpsNps

namespace UpsNps

/-- Claim C1: for every simulated year (the loop body runs only with a
positive balance and remaining horizon, i.e. at positive fuel, and here
does not take the year-0 perpetuity exit), the iteration continues with
the balance updated in the exact order of the source: interest for the
year is charged on the pre-update balance (the
`p.npsMonthly * MONTHS_PER_YEAR + corpus * p.corpusReturn` term below),
growth is applied first (`corpus * (1 + p.corpusReturn)`), and the
clamped shortfall `max 0 (totalUpsIncome - totalNpsIncome)` is
subtracted exactly once, after growth. -/
theorem claim_C1 (p : EngineParams) (fuel year : ℕ) (corpus upsMonthly : ℚ)
    (mrr : Option ℚ) (acc : List TraceRecord) (hc : 0 < corpus)
    (hexit : ¬ (year = 0 ∧
      totalUpsIncomeFor p year upsMonthly ≤ totalNpsIncomeFor p corpus)) :
    engineLoop p (fuel + 1) year corpus upsMonthly mrr acc =
      engineLoop p fuel (year + 1)
        (corpus * (1 + p.corpusReturn) -
          max 0 (totalUpsIncomeFor p year upsMonthly -
            (p.npsMonthly * MONTHS_PER_YEAR + corpus * p.corpusReturn)))
        (upsMonthly * (1 + p.postRetGrowth))
        (if year = 0 then
          some ((totalUpsIncomeFor p year upsMonthly -
            totalNpsIncomeFor p corpus) / p.initialCorpus)
          else mrr)
        (mkRow p year corpus upsMonthly :: acc) := by
  rw [engineLoop_continue p fuel year corpus upsMonthly mrr acc hc hexit]
  rfl

/-- Claim C1, applied at a concrete year-0 iteration of `pC1`. -/
theorem claim_C1_witness :
    engineLoop pC1 1 0 1000 100 none [] =
      engineLoop pC1 0 1
        (1000 * (1 + pC1.corpusReturn) -
          max 0 (totalUpsIncomeFor pC1 0 100 -
            (pC1.npsMonthly * MONTHS_PER_YEAR + 1000 * pC1.corpusReturn)))
        (100 * (1 + pC1.postRetGrowth))
        (some ((totalUpsIncomeFor pC1 0 100 - totalNpsIncomeFor pC1 1000) /
          pC1.initialCorpus))
        [mkRow pC1 0 1000 100] := by
  have h := claim_C1 pC1 0 0 1000 100 none [] (by norm_num)
    (by norm_num [totalUpsIncomeFor, totalNpsIncomeFor, currentUpsFor, pC1,
      MONTHS_PER_YEAR, UPS_SPOUSE_FACTOR])
  simpa using h

/-- Claim C6: the UPS monthly pension is
`min(yearsOfService/25, 1) * 0.5 * finalSalary / 12`; for 25 or more
years of service it is exactly `0.5 * finalSalary / 12` (cap reached),
and below 25 years it is the linear function
`yearsOfService * (0.5 * finalSalary / 12 / 25)` of the years of
service. -/
theorem claim_C6 (finalSalary yearsOfService : ℚ) :
    calculateUPSMonthlyPension finalSalary yearsOfService =
      min (yearsOfService / 25) 1 * ((1 / 2) * finalSalary) / 12 ∧
    (25 ≤ yearsOfService →
      calculateUPSMonthlyPension finalSalary yearsOfService =
        (1 / 2) * finalSalary / 12) ∧
    (0 ≤ yearsOfService → yearsOfService < 25 →
      calculateUPSMonthlyPension finalSalary yearsOfService =
        yearsOfService * ((1 / 2) * finalSalary / 12 / 25)) := by
  have hfac : UPS_PENSION_FACTOR = 1 / 2 := by norm_num [UPS_PENSION_FACTOR]
  have hmon : MONTHS_PER_YEAR = 12 := rfl
  refine ⟨?_, ?_, ?_⟩
  · simp only [calculateUPSMonthlyPension, hfac, hmon]
    ring
  · intro h
    have hmin : min (yearsOfService / 25) 1 = 1 :=
      min_eq_right ((one_le_div (by norm_num : (0:ℚ) < 25)).mpr h)
    simp only [calculateUPSMonthlyPension, hfac, hmon, hmin]
    ring
  · intro h0 h25
    have hmin : min (yearsOfService / 25) 1 = yearsOfService / 25 :=
      min_eq_left ((div_le_one (by norm_num : (0:ℚ) < 25)).mpr h25.le)
    simp only [calculateUPSMonthlyPension, hfac, hmon, hmin]
    ring

/-- Claim C6, applied at 30 years (cap) and at 10 years (linear
proration) with final salary 1200. -/
theorem claim_C6_witness :
    calculateUPSMonthlyPension 1200 30 = (1 / 2) * 1200 / 12 ∧
    calculateUPSMonthlyPension 1200 10 = 10 * ((1 / 2) * 1200 / 12 / 25) :=
  ⟨(claim_C6 1200 30).2.1 (by norm_num),
   (claim_C6 1200 10).2.2 (by norm_num) (by norm_num)⟩

/-- Claim C8: with `employeeLifeYears + spouseAdditionalYears ≤ 0` the
engine performs no iteration: the year count is 0, the trace is empty,
no perpetuity verdict and no `minReturnRate` are produced, and the
state is untouched. -/
theorem claim_C8 (p : EngineParams)
    (h : p.employeeLifeYears + p.spouseAdditionalYears ≤ 0) :
    calculateCorpusDepletionYears p =
      { years := 0, perpetual := false, minReturnRate := none, trace := [],
        finalCorpus := p.initialCorpus,
        finalUpsMonthly := p.upsMonthlyInitial } := by
  unfold calculateCorpusDepletionYears
  rw [Int.toNat_of_nonpos h]
  rfl

/-- Claim C8, applied to `pC8` whose horizon is `2 + (-3) = -1`. -/
theorem claim_C8_witness :
    calculateCorpusDepletionYears pC8 =
      { years := 0, perpetual := false, minReturnRate := none, trace := [],
        finalCorpus := pC8.initialCorpus,
        finalUpsMonthly := pC8.upsMonthlyInitial } :=
  claim_C8 pC8 (by decide)

/-- Claim C9: in an iteration whose NPS income is at least the UPS
income (and with a non-negative return rate and the positive balance
the loop guarantees), the clamp `max 0 _` discards the surplus, so the
updated balance is exactly `corpus * (1 + corpusReturn)` and the corpus
does not decrease. -/
theorem claim_C9 (p : EngineParams) (year : ℕ) (corpus upsMonthly : ℚ)
    (hr : 0 ≤ p.corpusReturn) (hc : 0 < corpus)
    (hn : totalUpsIncomeFor p year upsMonthly ≤ totalNpsIncomeFor p corpus) :
    nextCorpus p year corpus upsMonthly = corpus * (1 + p.corpusReturn) ∧
    corpus ≤ nextCorpus p year corpus upsMonthly := by
  have hmax : max 0 (totalUpsIncomeFor p year upsMonthly -
      totalNpsIncomeFor p corpus) = 0 :=
    max_eq_left (by linarith)
  constructor
  · unfold nextCorpus
    rw [hmax, sub_zero]
  · unfold nextCorpus
    rw [hmax, sub_zero]
    nlinarith [mul_nonneg hc.le hr]

/-- Claim C9, applied to `pC9` at year 1 with balance 50: the NPS
income (125) dominates the UPS income (0) and the balance grows to
55. -/
theorem claim_C9_witness :
    nextCorpus pC9 1 50 0 = 50 * (1 + pC9.corpusReturn) ∧
    (50 : ℚ) ≤ nextCorpus pC9 1 50 0 :=
  claim_C9 pC9 1 50 0 (by norm_num [pC9]) (by norm_num)
    (by norm_num [totalUpsIncomeFor, totalNpsIncomeFor, currentUpsFor, pC9,
      MONTHS_PER_YEAR, UPS_SPOUSE_FACTOR])

/-- Claim C10: whenever the engine records a `minReturnRate` (the
division `yearlyDifference / initialCorpus` was executed), the initial
corpus was positive, because the year-0 division is only reached when
the loop body runs, which requires `corpus > 0`, and at year 0 the
corpus still equals `initialCorpus`. -/
theorem claim_C10 (p : EngineParams)
    (h : (calculateCorpusDepletionYears p).minReturnRate ≠ none) :
    0 < p.initialCorpus := by
  by_contra hc
  apply h
  unfold calculateCorpusDepletionYears
  cases (p.employeeLifeYears + p.spouseAdditionalYears).toNat with
  | zero => rfl
  | succ n => rw [engineLoop_depleted p n 0 _ _ none [] hc]

/-- Claim C10, applied to `pC10`, whose run records a
`minReturnRate`. -/
theorem claim_C10_witness : 0 < pC10.initialCorpus :=
  claim_C10 pC10 (by
    have h : (calculateCorpusDepletionYears pC10).minReturnRate = some (6 / 5) := by
      norm_num [calculateCorpusDepletionYears, engineLoop, pC10, mkRow,
        totalUpsIncomeFor, totalNpsIncomeFor, currentUpsFor, nextCorpus,
        MONTHS_PER_YEAR, UPS_SPOUSE_FACTOR]
    simp [h])

end UpsNps

namespace UpsNps

/-- Folding `x + f j` over a list sums the mapped values onto the
initial value. -/
lemma foldl_add_eq (f : ℕ → ℚ) :
    ∀ (l : List ℕ) (a : ℚ),
      l.foldl (fun x j => x + f j) a = a + (l.map f).sum := by
  intro l
  induction l with
  | nil => intro a; simp
  | cons x xs ih => intro a; simp [ih, add_assoc]

/-- Summing a map over `List.range` is the `Finset.range` sum. -/
lemma list_range_map_sum (f : ℕ → ℚ) (n : ℕ) :
    ((List.range n).map f).sum = ∑ i ∈ Finset.range n, f i := by
  induction n with
  | zero => simp
  | succ m ih =>
    rw [List.range_succ, List.map_append, List.sum_append,
      Finset.sum_range_succ, ih]
    simp

/-- Closed form of the accumulation loop. -/
lemma calculateNPSCorpus_eq (currentSalary growthRate : ℚ) (years : ℕ)
    (totalContribRate annualReturn existingCorpus : ℚ) :
    calculateNPSCorpus currentSalary growthRate years totalContribRate
        annualReturn existingCorpus =
      existingCorpus * (1 + annualReturn) ^ years +
        ∑ i ∈ Finset.range years,
          totalContribRate * (currentSalary * (1 + growthRate) ^ (i + 1)) *
            (1 + annualReturn) ^ (years - (i + 1)) := by
  show (List.range years).foldl
      (fun x j => x + totalContribRate * (currentSalary * (1 + growthRate) ^ (j + 1)) *
        (1 + annualReturn) ^ (years - (j + 1)))
      (existingCorpus * (1 + annualReturn) ^ years) = _
  rw [foldl_add_eq (fun j =>
    totalContribRate * (currentSalary * (1 + growthRate) ^ (j + 1)) *
      (1 + annualReturn) ^ (years - (j + 1)))]
  rw [list_range_map_sum]

/-- Claim C5: the NPS corpus accumulation equals
`existingCorpus * (1+annualReturn)^years` plus the sum over
`i = 1..years` of
`totalContribRate * currentSalary * (1+growthRate)^i *
(1+annualReturn)^(years-i)` (written below with `i = j+1` running over
`j ∈ range years`): the contribution of year `i` compounds for
`years - i` years (end-of-year timing).  With zero contribution rate
and zero return the corpus is returned unchanged. -/
theorem claim_C5 (currentSalary growthRate : ℚ) (years : ℕ)
    (totalContribRate annualReturn existingCorpus : ℚ) :
    calculateNPSCorpus currentSalary growthRate years totalContribRate
        annualReturn existingCorpus =
      existingCorpus * (1 + annualReturn) ^ years +
        ∑ i ∈ Finset.range years,
          totalContribRate * (currentSalary * (1 + growthRate) ^ (i + 1)) *
            (1 + annualReturn) ^ (years - (i + 1)) ∧
    calculateNPSCorpus currentSalary growthRate years 0 0 existingCorpus =
      existingCorpus := by
  refine ⟨calculateNPSCorpus_eq _ _ _ _ _ _, ?_⟩
  rw [calculateNPSCorpus_eq]
  simp

end UpsNps

namespace UpsNps

/-- When the year-0 NPS income covers the UPS income (and the loop is
entered at all), the whole run is the single perpetual-exit
iteration. -/
lemma run_perpetual_eq (p : EngineParams) (hc : 0 < p.initialCorpus)
    (ht : 0 < p.employeeLifeYears + p.spouseAdditionalYears)
    (hcond : totalUpsIncomeFor p 0 p.upsMonthlyInitial ≤
      totalNpsIncomeFor p p.initialCorpus) :
    calculateCorpusDepletionYears p =
      { years := 0, perpetual := true,
        minReturnRate := some ((totalUpsIncomeFor p 0 p.upsMonthlyInitial -
          totalNpsIncomeFor p p.initialCorpus) / p.initialCorpus),
        trace := [mkRow p 0 p.initialCorpus p.upsMonthlyInitial],
        finalCorpus := p.initialCorpus,
        finalUpsMonthly := p.upsMonthlyInitial } := by
  obtain ⟨n, hn⟩ :
      ∃ n, (p.employeeLifeYears + p.spouseAdditionalYears).toNat = n + 1 :=
    ⟨(p.employeeLifeYears + p.spouseAdditionalYears).toNat - 1, by omega⟩
  unfold calculateCorpusDepletionYears
  rw [hn, engineLoop_perpetual p n _ _ none [] hc hcond]
  rfl

/-- When the year-0 NPS income does not cover the UPS income, the run
never reports the perpetual verdict. -/
lemma run_not_perpetual (p : EngineParams) (hc : 0 < p.initialCorpus)
    (ht : 0 < p.employeeLifeYears + p.spouseAdditionalYears)
    (hcond : ¬ totalUpsIncomeFor p 0 p.upsMonthlyInitial ≤
      totalNpsIncomeFor p p.initialCorpus) :
    (calculateCorpusDepletionYears p).perpetual = false := by
  obtain ⟨n, hn⟩ :
      ∃ n, (p.employeeLifeYears + p.spouseAdditionalYears).toNat = n + 1 :=
    ⟨(p.employeeLifeYears + p.spouseAdditionalYears).toNat - 1, by omega⟩
  unfold calculateCorpusDepletionYears
  rw [hn, engineLoop_continue p n 0 _ _ none [] hc (by rintro ⟨-, h⟩; exact hcond h)]
  exact engineLoop_perpetual_false p n 1 _ _ _ _ le_rfl

/-- The perpetual verdict is equivalent to the year-0 condition. -/
lemma run_perpetual_iff (p : EngineParams) (hc : 0 < p.initialCorpus)
    (ht : 0 < p.employeeLifeYears + p.spouseAdditionalYears) :
    (calculateCorpusDepletionYears p).perpetual = true ↔
      totalUpsIncomeFor p 0 p.upsMonthlyInitial ≤
        totalNpsIncomeFor p p.initialCorpus := by
  constructor
  · intro hp
    by_contra hcond
    have h := run_not_perpetual p hc ht hcond
    rw [h] at hp
    exact Bool.false_ne_true hp
  · intro hcond
    rw [run_perpetual_eq p hc ht hcond]

/-- Claim C2: with a positive initial corpus and a positive horizon the
engine returns the perpetual (`Infinity`) verdict exactly when the
year-0 NPS income (annuity plus interest on the initial corpus) is at
least the year-0 UPS income — the check never fires in a later year —
and in that case it records
`minReturnRate = yearlyDifference / initialCorpus`, emits exactly one
trace row, and exits before mutating `corpus` or `upsMonthly`. -/
theorem claim_C2 (p : EngineParams) (hc : 0 < p.initialCorpus)
    (ht : 0 < p.employeeLifeYears + p.spouseAdditionalYears) :
    ((calculateCorpusDepletionYears p).perpetual = true ↔
      totalUpsIncomeFor p 0 p.upsMonthlyInitial ≤
        totalNpsIncomeFor p p.initialCorpus) ∧
    ((calculateCorpusDepletionYears p).perpetual = true →
      (calculateCorpusDepletionYears p).minReturnRate =
        some ((totalUpsIncomeFor p 0 p.upsMonthlyInitial -
          totalNpsIncomeFor p p.initialCorpus) / p.initialCorpus) ∧
      (calculateCorpusDepletionYears p).trace.length = 1 ∧
      (calculateCorpusDepletionYears p).finalCorpus = p.initialCorpus ∧
      (calculateCorpusDepletionYears p).finalUpsMonthly =
        p.upsMonthlyInitial) := by
  refine ⟨run_perpetual_iff p hc ht, ?_⟩
  intro hp
  have hcond := (run_perpetual_iff p hc ht).mp hp
  rw [run_perpetual_eq p hc ht hcond]
  exact ⟨rfl, rfl, rfl, rfl⟩

/-- Claim C2, applied to the perpetual run `pC2`. -/
theorem claim_C2_witness :
    (calculateCorpusDepletionYears pC2).perpetual = true ∧
    (calculateCorpusDepletionYears pC2).minReturnRate =
      some ((totalUpsIncomeFor pC2 0 pC2.upsMonthlyInitial -
        totalNpsIncomeFor pC2 pC2.initialCorpus) / pC2.initialCorpus) := by
  have h := claim_C2 pC2 (by norm_num [pC2]) (by decide)
  have hcond : totalUpsIncomeFor pC2 0 pC2.upsMonthlyInitial ≤
      totalNpsIncomeFor pC2 pC2.initialCorpus := by
    norm_num [totalUpsIncomeFor, totalNpsIncomeFor, currentUpsFor, pC2,
      MONTHS_PER_YEAR, UPS_SPOUSE_FACTOR]
  have hp := h.1.mpr hcond
  exact ⟨hp, (h.2 hp).1⟩

/-- Claim C7: when the run is not perpetual, the reported minimum
sustainable return rate is the static figure
`(upsMonthly*12 - npsMonthly*12) / lumpSum` from initial-year values
(no lump-sum-return or corpus-interest terms); when it is perpetual,
the reported figure is the engine's year-0 value
`yearlyDifference / initialCorpus`. -/
theorem claim_C7 (p : EngineParams) (hc : 0 < p.initialCorpus)
    (ht : 0 < p.employeeLifeYears + p.spouseAdditionalYears) :
    ((calculateCorpusDepletionYears p).perpetual = false →
      reportedMinReturnRate p.upsMonthlyInitial p.npsMonthly p.initialCorpus
          (calculateCorpusDepletionYears p) =
        some ((p.upsMonthlyInitial * MONTHS_PER_YEAR -
          p.npsMonthly * MONTHS_PER_YEAR) / p.initialCorpus)) ∧
    ((calculateCorpusDepletionYears p).perpetual = true →
      reportedMinReturnRate p.upsMonthlyInitial p.npsMonthly p.initialCorpus
          (calculateCorpusDepletionYears p) =
        some ((totalUpsIncomeFor p 0 p.upsMonthlyInitial -
          totalNpsIncomeFor p p.initialCorpus) / p.initialCorpus)) := by
  constructor
  · intro hp
    unfold reportedMinReturnRate
    rw [hp]
    simp
  · intro hp
    have hcond := (run_perpetual_iff p hc ht).mp hp
    unfold reportedMinReturnRate
    rw [run_perpetual_eq p hc ht hcond]
    simp

/-- Claim C7, applied to the depleting run `pC7dep` and the perpetual
run `pC7per`. -/
theorem claim_C7_witness :
    reportedMinReturnRate pC7dep.upsMonthlyInitial pC7dep.npsMonthly
        pC7dep.initialCorpus (calculateCorpusDepletionYears pC7dep) =
      some ((pC7dep.upsMonthlyInitial * MONTHS_PER_YEAR -
        pC7dep.npsMonthly * MONTHS_PER_YEAR) / pC7dep.initialCorpus) ∧
    reportedMinReturnRate pC7per.upsMonthlyInitial pC7per.npsMonthly
        pC7per.initialCorpus (calculateCorpusDepletionYears pC7per) =
      some ((totalUpsIncomeFor pC7per 0 pC7per.upsMonthlyInitial -
        totalNpsIncomeFor pC7per pC7per.initialCorpus) /
          pC7per.initialCorpus) := by
  constructor
  · refine (claim_C7 pC7dep (by norm_num [pC7dep]) (by decide)).1 ?_
    norm_num [calculateCorpusDepletionYears, engineLoop, pC7dep, mkRow,
      totalUpsIncomeFor, totalNpsIncomeFor, currentUpsFor, nextCorpus,
      MONTHS_PER_YEAR, UPS_SPOUSE_FACTOR]
  · refine (claim_C7 pC7per (by norm_num [pC7per]) (by decide)).2 ?_
    norm_num [calculateCorpusDepletionYears, engineLoop, pC7per, mkRow,
      totalUpsIncomeFor, totalNpsIncomeFor, currentUpsFor, nextCorpus,
      MONTHS_PER_YEAR, UPS_SPOUSE_FACTOR]

end UpsNps

namespace UpsNps

/-- Claim C3 is false: in the run `pC3` the single simulated year
(year 0) starts at balance 1000 and its growth-and-shortfall update
produces -200 (which is also the final balance the loop stops on), yet
the emitted trace row reports 1000 — the pre-update balance, not the
ending balance. -/
theorem claim_C3_counterexample :
    (calculateCorpusDepletionYears pC3).trace.map TraceRecord.corpusBalance =
      [1000] ∧
    (calculateCorpusDepletionYears pC3).trace.map TraceRecord.year = [0] ∧
    nextCorpus pC3 0 1000 100 = -200 ∧
    (calculateCorpusDepletionYears pC3).finalCorpus = -200 ∧
    (1000 : ℚ) ≠ -200 := by
  refine ⟨?_, ?_, ?_, ?_, by norm_num⟩ <;>
    norm_num [calculateCorpusDepletionYears, engineLoop, pC3, mkRow,
      totalUpsIncomeFor, totalNpsIncomeFor, currentUpsFor, nextCorpus,
      MONTHS_PER_YEAR, UPS_SPOUSE_FACTOR]

/-- Claim C3 as amended: every trace row emitted by the engine reports,
as its corpus-balance field, the balance at the START of its year — the
value before that year's growth-and-shortfall update — not the ending
balance. -/
theorem claim_C3_amended (p : EngineParams) (r : TraceRecord)
    (hr : r ∈ (calculateCorpusDepletionYears p).trace) :
    r.corpusBalance = corpusAt p r.year := by
  rw [calculateCorpusDepletionYears_eq_loop] at hr
  rcases engineLoop_trace_rows p _ 0 none [] r hr with h | ⟨n, -, hrow⟩
  · exact absurd h (List.not_mem_nil r)
  · rw [hrow]
    simp [mkRow]

/-- Claim C3 (amended), applied to the single trace row of `pC3`. -/
theorem claim_C3_witness :
    ((calculateCorpusDepletionYears pC3).trace.headI).corpusBalance =
      corpusAt pC3 ((calculateCorpusDepletionYears pC3).trace.headI).year := by
  apply claim_C3_amended pC3
  have h : (calculateCorpusDepletionYears pC3).trace =
      [mkRow pC3 0 1000 100] := by
    norm_num [calculateCorpusDepletionYears, engineLoop, pC3, mkRow,
      totalUpsIncomeFor, totalNpsIncomeFor, currentUpsFor, nextCorpus,
      MONTHS_PER_YEAR, UPS_SPOUSE_FACTOR]
  rw [h]
  simp

end UpsNps

namespace UpsNps

/-- A year simulated by the loop (run in the synchronized state) starts
with a positive balance: the body only runs under `corpus > 0`, and the
returned year count is the number of iterations performed. -/
lemma engineLoop_corpusAt_pos (p : EngineParams) :
    ∀ fuel year mrr acc n, year ≤ n →
      n < (engineLoop p fuel year (corpusAt p year) (upsMonthlyAt p year)
        mrr acc).years →
      0 < corpusAt p n := by
  intro fuel
  induction fuel with
  | zero =>
    intro year mrr acc n h1 h2
    rw [engineLoop_fuel_zero] at h2
    have h3 : n < year := h2
    omega
  | succ m ih =>
    intro year mrr acc n h1 h2
    by_cases hc : 0 < corpusAt p year
    · by_cases hcond : year = 0 ∧
        totalUpsIncomeFor p year (upsMonthlyAt p year) ≤
          totalNpsIncomeFor p (corpusAt p year)
      · obtain ⟨h0, hle⟩ := hcond
        subst h0
        rw [engineLoop_perpetual p m _ _ mrr acc hc hle] at h2
        exact absurd h2 (Nat.not_lt_zero n)
      · rw [engineLoop_continue p m year _ _ mrr acc hc hcond] at h2
        rcases Nat.eq_or_lt_of_le h1 with h3 | h3
        · rw [← h3]
          exact hc
        · have h4 : n < (engineLoop p m (year + 1) (corpusAt p (year + 1))
              (upsMonthlyAt p (year + 1))
              (if year = 0 then
                some ((totalUpsIncomeFor p year (upsMonthlyAt p year) -
                  totalNpsIncomeFor p (corpusAt p year)) / p.initialCorpus)
                else mrr)
              (mkRow p year (corpusAt p year) (upsMonthlyAt p year) ::
                acc)).years := by
            simpa only [corpusAt, upsMonthlyAt] using h2
          exact ih (year + 1) _ _ n h3 h4
    · rw [engineLoop_depleted p m year _ _ mrr acc hc] at h2
      have h3 : n < year := h2
      omega

/-- Every year index below the returned year count was simulated with a
positive start-of-year balance. -/
lemma corpusAt_pos_of_lt_years (p : EngineParams) (n : ℕ)
    (hn : n < (calculateCorpusDepletionYears p).years) :
    0 < corpusAt p n := by
  apply engineLoop_corpusAt_pos p
    (p.employeeLifeYears + p.spouseAdditionalYears).toNat 0 none [] n
    (Nat.zero_le n)
  rw [← calculateCorpusDepletionYears_eq_loop]
  exact hn

/-- Claim C4 is false as stated: in the run `pC4` the corpus return is
zero and the UPS income strictly exceeds the NPS income in every
simulated year (all five years the loop runs), yet the loop runs for 5
years while `ceil(initialCorpus / yearlyDifference) = ceil(1000/600) =
2` — after the employee phase the spouse factor shrinks the yearly
shortfall below its year-0 value, so the year-0 bound does not hold. -/
theorem claim_C4_counterexample :
    pC4.corpusReturn = 0 ∧
    (∀ n : ℕ, n < (calculateCorpusDepletionYears pC4).years →
      totalNpsIncomeFor pC4 (corpusAt pC4 n) <
        totalUpsIncomeFor pC4 n (upsMonthlyAt pC4 n)) ∧
    (⌈pC4.initialCorpus / (totalUpsIncomeFor pC4 0 pC4.upsMonthlyInitial -
        totalNpsIncomeFor pC4 pC4.initialCorpus)⌉).toNat <
      (calculateCorpusDepletionYears pC4).years := by
  have hyears : (calculateCorpusDepletionYears pC4).years = 5 := by
    norm_num [calculateCorpusDepletionYears, engineLoop, pC4, mkRow,
      totalUpsIncomeFor, totalNpsIncomeFor, currentUpsFor, nextCorpus,
      MONTHS_PER_YEAR, UPS_SPOUSE_FACTOR]
  refine ⟨rfl, ?_, ?_⟩
  · intro n hn
    rw [hyears] at hn
    interval_cases n <;>
      norm_num [corpusAt, upsMonthlyAt, nextCorpus, totalUpsIncomeFor,
        totalNpsIncomeFor, currentUpsFor, pC4, MONTHS_PER_YEAR,
        UPS_SPOUSE_FACTOR]
  · have hdiff : totalUpsIncomeFor pC4 0 pC4.upsMonthlyInitial -
        totalNpsIncomeFor pC4 pC4.initialCorpus = 600 := by
      norm_num [totalUpsIncomeFor, totalNpsIncomeFor, currentUpsFor, pC4,
        MONTHS_PER_YEAR, UPS_SPOUSE_FACTOR]
    have hceil : (⌈pC4.initialCorpus / (totalUpsIncomeFor pC4 0
        pC4.upsMonthlyInitial - totalNpsIncomeFor pC4 pC4.initialCorpus)⌉ :
          ℤ) = 2 := by
      rw [hdiff]
      norm_num [pC4, Int.ceil_eq_iff]
    rw [hceil, hyears]
    decide

/-- Claim C4 as amended: with corpusReturnRate = 0, if the UPS income
strictly exceeds the NPS income in every simulated year (every year
index below the returned year count), the corpus strictly decreases on
each of those iterations; and if additionally no simulated year's
shortfall falls below the year-0 yearlyDifference (which the spouse
factor or a negative pension growth can violate), then the loop
terminates in at most `ceil(initialCorpus / yearlyDifference)`
years. -/
theorem claim_C4_amended (p : EngineParams) (hr : p.corpusReturn = 0)
    (hpos : ∀ n : ℕ, n < (calculateCorpusDepletionYears p).years →
      totalNpsIncomeFor p (corpusAt p n) <
        totalUpsIncomeFor p n (upsMonthlyAt p n)) :
    (∀ n : ℕ, n < (calculateCorpusDepletionYears p).years →
      corpusAt p (n + 1) < corpusAt p n) ∧
    ((∀ n : ℕ, n < (calculateCorpusDepletionYears p).years →
        totalUpsIncomeFor p 0 p.upsMonthlyInitial -
            totalNpsIncomeFor p p.initialCorpus ≤
          totalUpsIncomeFor p n (upsMonthlyAt p n) -
            totalNpsIncomeFor p (corpusAt p n)) →
      (calculateCorpusDepletionYears p).years ≤
        (⌈p.initialCorpus / (totalUpsIncomeFor p 0 p.upsMonthlyInitial -
          totalNpsIncomeFor p p.initialCorpus)⌉).toNat) := by
  set Y := (calculateCorpusDepletionYears p).years with hY
  set d := totalUpsIncomeFor p 0 p.upsMonthlyInitial -
    totalNpsIncomeFor p p.initialCorpus with hd
  have hstep : ∀ n, n < Y → corpusAt p (n + 1) =
      corpusAt p n - (totalUpsIncomeFor p n (upsMonthlyAt p n) -
        totalNpsIncomeFor p (corpusAt p n)) := by
    intro n hn
    have h1 := hpos n hn
    show nextCorpus p n (corpusAt p n) (upsMonthlyAt p n) = _
    unfold nextCorpus
    rw [hr, max_eq_right (sub_nonneg.mpr h1.le)]
    ring
  have hdec : ∀ n, n < Y → corpusAt p (n + 1) < corpusAt p n := by
    intro n hn
    rw [hstep n hn]
    have h1 := hpos n hn
    linarith
  refine ⟨hdec, ?_⟩
  intro hmin
  rcases Nat.eq_zero_or_pos Y with hY0 | hY1
  · omega
  · have hd0 : 0 < d := by
      have h1 := hpos 0 hY1
      simp only [corpusAt, upsMonthlyAt] at h1
      rw [hd]
      linarith
    have hbound : ∀ n, n ≤ Y → corpusAt p n ≤
        p.initialCorpus - (n : ℚ) * d := by
      intro n
      induction n with
      | zero => intro h0; simp [corpusAt]
      | succ m ih =>
        intro hm
        have hmY : m < Y := by omega
        have h2 := hmin m hmY
        have h3 := ih (by omega)
        rw [hstep m hmY]
        have h4 : ((m : ℚ) + 1) * d = (m : ℚ) * d + d := by ring
        push_cast
        linarith
    have hlt : Y - 1 < (calculateCorpusDepletionYears p).years := by
      rw [← hY]
      omega
    have hpos2 : 0 < corpusAt p (Y - 1) :=
      corpusAt_pos_of_lt_years p (Y - 1) hlt
    have h5 := hbound (Y - 1) (by omega)
    have hcast : ((Y - 1 : ℕ) : ℚ) = (Y : ℚ) - 1 := by
      rw [Nat.cast_sub hY1, Nat.cast_one]
    rw [hcast] at h5
    have h6 : ((Y : ℚ) - 1) * d < p.initialCorpus := by linarith
    have h7 : ((Y : ℚ) - 1) < p.initialCorpus / d := by
      rw [lt_div_iff₀ hd0]
      exact h6
    have h8 : ((Y : ℤ) - 1) < ⌈p.initialCorpus / d⌉ := by
      have h9 : ((Y : ℚ) - 1) < ((⌈p.initialCorpus / d⌉ : ℤ) : ℚ) :=
        lt_of_lt_of_le h7 (Int.le_ceil _)
      exact_mod_cast h9
    omega

/-- Claim C4 (amended), applied to `pC4w`: the loop simulates two years
(1000 → 400 → -200) with constant shortfall 600/yr and zero return, the
corpus strictly decreasing each simulated year, and the year count 2
meets the bound `ceil(1000/600) = 2`. -/
theorem claim_C4_witness :
    (∀ n : ℕ, n < (calculateCorpusDepletionYears pC4w).years →
      corpusAt pC4w (n + 1) < corpusAt pC4w n) ∧
    (calculateCorpusDepletionYears pC4w).years ≤
      (⌈pC4w.initialCorpus / (totalUpsIncomeFor pC4w 0 pC4w.upsMonthlyInitial -
        totalNpsIncomeFor pC4w pC4w.initialCorpus)⌉).toNat := by
  have hy : (calculateCorpusDepletionYears pC4w).years = 2 := by
    norm_num [calculateCorpusDepletionYears, engineLoop, pC4w, mkRow,
      totalUpsIncomeFor, totalNpsIncomeFor, currentUpsFor, nextCorpus,
      MONTHS_PER_YEAR, UPS_SPOUSE_FACTOR]
  have hpos : ∀ n : ℕ, n < (calculateCorpusDepletionYears pC4w).years →
      totalNpsIncomeFor pC4w (corpusAt pC4w n) <
        totalUpsIncomeFor pC4w n (upsMonthlyAt pC4w n) := by
    intro n hn
    rw [hy] at hn
    interval_cases n <;>
      norm_num [corpusAt, upsMonthlyAt, nextCorpus, totalUpsIncomeFor,
        totalNpsIncomeFor, currentUpsFor, pC4w, MONTHS_PER_YEAR,
        UPS_SPOUSE_FACTOR]
  have hmin : ∀ n : ℕ, n < (calculateCorpusDepletionYears pC4w).years →
      totalUpsIncomeFor pC4w 0 pC4w.upsMonthlyInitial -
          totalNpsIncomeFor pC4w pC4w.initialCorpus ≤
        totalUpsIncomeFor pC4w n (upsMonthlyAt pC4w n) -
          totalNpsIncomeFor pC4w (corpusAt pC4w n) := by
    intro n hn
    rw [hy] at hn
    interval_cases n <;>
      norm_num [corpusAt, upsMonthlyAt, nextCorpus, totalUpsIncomeFor,
        totalNpsIncomeFor, currentUpsFor, pC4w, MONTHS_PER_YEAR,
        UPS_SPOUSE_FACTOR]
  exact ⟨(claim_C4_amended pC4w rfl hpos).1,
    (claim_C4_amended pC4w rfl hpos).2 hmin⟩

end UpsNps
